import Mathlib

/-!
Shallow embedding of the gedit Pointer Focus plugin
(src/pointerfocus/pointer_focus.py).

The plugin walks a GTK widget tree, connects signal handlers and keeps two
dictionaries mapping widgets to signal-handler ids.  We model GTK widgets as
finite rose trees: each widget has an identity (a natural number), a
`can_focus` property, a flag telling whether it is a gtk.Notebook, and either
a list of children (containers, on which `get_children()` succeeds) or `none`
(widgets on which `get_children()` raises AttributeError).

The GTK signal machinery is modelled explicitly: `connect` allocates a fresh
handler id from a counter and records an active connection
(widget, signal, handler); `disconnect` removes the connection with a given
widget and handler id.  The helper state bundles the two dictionaries of
PointerFocusWindowHelper with this connection state.
-/

/-- A GTK widget: id, can_focus property, whether it is a gtk.Notebook, and
the children list (`none` models a widget without a get_children method). -/
inductive Widget : Type where
  | node : Nat → Bool → Bool → Option (List Widget) → Widget

/-- The identity of a widget (Python object identity). -/
def Widget.wid : Widget → Nat
  | .node i _ _ _ => i

/-- The value of the widget property can_focus. -/
def Widget.canFocus : Widget → Bool
  | .node _ cf _ _ => cf

/-- Whether the widget is an instance of gtk.Notebook. -/
def Widget.isNotebook : Widget → Bool
  | .node _ _ nb _ => nb

/-- The result of get_children: `none` models AttributeError. -/
def Widget.childrenOpt : Widget → Option (List Widget)
  | .node _ _ _ oc => oc

mutual
/-- PointerFocusWindowHelper._get_notebooks: collect gtk.Notebook widgets.
The widget itself is added only when get_children succeeds (the add happens
in the else-branch of the try statement). -/
def getNotebooks : Widget → List Widget
  | .node _ _ _ none => []
  | .node i cf nb (some cs) =>
      (if nb then [Widget.node i cf nb (some cs)] else []) ++ getNotebooksList cs
/-- Union of _get_notebooks over a list of children. -/
def getNotebooksList : List Widget → List Widget
  | [] => []
  | c :: cs => getNotebooks c ++ getNotebooksList cs
end

mutual
/-- PointerFocusWindowHelper._get_focusables: collect widgets whose
can_focus property is true; children are traversed when get_children
succeeds, AttributeError is swallowed. -/
def getFocusables : Widget → List Widget
  | .node i cf nb none => if cf then [.node i cf nb none] else []
  | .node i cf nb (some cs) =>
      (if cf then [Widget.node i cf nb (some cs)] else []) ++ getFocusablesList cs
/-- Union of _get_focusables over a list of children. -/
def getFocusablesList : List Widget → List Widget
  | [] => []
  | c :: cs => getFocusables c ++ getFocusablesList cs
end

mutual
/-- The subtree rooted at a widget, in the sense of the spec: the widget
itself and, for each widget that exposes get_children, all of its children
recursively. -/
def specSubtree : Widget → List Widget
  | .node i cf nb none => [.node i cf nb none]
  | .node i cf nb (some cs) => Widget.node i cf nb (some cs) :: specSubtreeList cs
/-- Subtrees of a list of widgets, concatenated. -/
def specSubtreeList : List Widget → List Widget
  | [] => []
  | c :: cs => specSubtree c ++ specSubtreeList cs
end

/-- All widget identities in a subtree. -/
def allIds (w : Widget) : List Nat := (specSubtree w).map Widget.wid

mutual
/-- Size of a widget tree, used as a fuel bound for the recursions. -/
def sizeW : Widget → Nat
  | .node _ _ _ none => 1
  | .node _ _ _ (some cs) => 1 + sizeL cs
/-- Total size of a list of widget trees. -/
def sizeL : List Widget → Nat
  | [] => 0
  | c :: cs => sizeW c + sizeL cs
end

/-- A Python exception relevant to the plugin code. -/
inductive PyErr : Type where
  | keyError : PyErr
  | attrError : PyErr
deriving DecidableEq

/-- The call widget.get_children(): raises AttributeError on widgets that
are not containers, otherwise returns the children. -/
def getChildrenOp (w : Widget) : Except PyErr (List Widget) :=
  match w.childrenOpt with
  | none => Except.error PyErr.attrError
  | some cs => Except.ok cs

mutual
/-- Exception-aware version of _get_notebooks: the try/except around
get_children catches AttributeError (the case where getChildrenOp errors,
i.e. childrenOpt is none) and skips the widget; an error from a recursive
call would propagate. -/
def getNotebooksE : Widget → Except PyErr (List Widget)
  | .node _ _ _ none => Except.ok []
  | .node i cf nb (some cs) =>
      match getNotebooksListE cs with
      | .error e => Except.error e
      | .ok rest =>
          Except.ok ((if nb then [Widget.node i cf nb (some cs)] else []) ++ rest)
/-- Exception-aware union over children for _get_notebooks. -/
def getNotebooksListE : List Widget → Except PyErr (List Widget)
  | [] => Except.ok []
  | c :: cs =>
      match getNotebooksE c with
      | .error e => Except.error e
      | .ok a =>
          match getNotebooksListE cs with
          | .error e => Except.error e
          | .ok b => Except.ok (a ++ b)
end

mutual
/-- Exception-aware version of _get_focusables: get_property succeeds on
every widget; the try/except around get_children catches AttributeError
(the case where getChildrenOp errors). -/
def getFocusablesE : Widget → Except PyErr (List Widget)
  | .node i cf nb none => Except.ok (if cf then [Widget.node i cf nb none] else [])
  | .node i cf nb (some cs) =>
      match getFocusablesListE cs with
      | .error e => Except.error e
      | .ok rest =>
          Except.ok ((if cf then [Widget.node i cf nb (some cs)] else []) ++ rest)
/-- Exception-aware union over children for _get_focusables. -/
def getFocusablesListE : List Widget → Except PyErr (List Widget)
  | [] => Except.ok []
  | c :: cs =>
      match getFocusablesE c with
      | .error e => Except.error e
      | .ok a =>
          match getFocusablesListE cs with
          | .error e => Except.error e
          | .ok b => Except.ok (a ++ b)
end

/-- Fuel-bounded version of _get_notebooks, used to state termination:
`none` means the recursion did not complete within the given fuel. -/
def getNotebooksF : Nat → Widget → Option (List Widget)
  | 0, _ => none
  | _ + 1, .node _ _ _ none => some []
  | n + 1, .node i cf nb (some cs) =>
      match getNotebooksListF n cs with
      | none => none
      | some rest => some ((if nb then [Widget.node i cf nb (some cs)] else []) ++ rest)
where
  getNotebooksListF : Nat → List Widget → Option (List Widget)
  | _, [] => some []
  | n, c :: cs =>
      match getNotebooksF n c, getNotebooksListF n cs with
      | some a, some b => some (a ++ b)
      | _, _ => none

/-- Fuel-bounded version of _get_focusables. -/
def getFocusablesF : Nat → Widget → Option (List Widget)
  | 0, _ => none
  | _ + 1, .node i cf nb none => some (if cf then [Widget.node i cf nb none] else [])
  | n + 1, .node i cf nb (some cs) =>
      match getFocusablesListF n cs with
      | none => none
      | some rest => some ((if cf then [Widget.node i cf nb (some cs)] else []) ++ rest)
where
  getFocusablesListF : Nat → List Widget → Option (List Widget)
  | _, [] => some []
  | n, c :: cs =>
      match getFocusablesF n c, getFocusablesListF n cs with
      | some a, some b => some (a ++ b)
      | _, _ => none

/-- Python set semantics for collections of widgets: keep the first
occurrence of each object identity. -/
def dedupIdsAux : List Nat → List Widget → List Widget
  | _, [] => []
  | seen, w :: ws =>
      if w.wid ∈ seen then dedupIdsAux seen ws
      else w :: dedupIdsAux (w.wid :: seen) ws

/-- Deduplicate a widget list by object identity. -/
def dedupIds (l : List Widget) : List Widget := dedupIdsAux [] l

/-- Concatenation of _get_focusables over a list of notebooks (the set
union in activate). -/
def collectFocusables : List Widget → List Widget
  | [] => []
  | n :: ns => getFocusables n ++ collectFocusables ns

/-- The two GTK signals the helper connects to. -/
inductive Signal : Type where
  | pageAdded : Signal
  | enterNotify : Signal
deriving DecidableEq

/-- An active GTK signal connection: widget identity, signal, handler id. -/
structure Conn : Type where
  cw : Nat
  csig : Signal
  ch : Nat
deriving DecidableEq

/-- State of one PointerFocusWindowHelper together with the GTK connection
state it manipulates: the dictionaries _handlers_per_notebook and
_handlers_per_focusable, the active connections, and the handler-id
counter. -/
structure GState : Type where
  hpn : List (Nat × Nat)
  hpf : List (Nat × Nat)
  active : List Conn
  next : Nat
deriving DecidableEq

/-- The helper state right after __init__: both dictionaries empty, no
connections made yet. -/
def initGState : GState := ⟨[], [], [], 0⟩

/-- Python dict assignment d[k] = v on an association list: overwrite the
entry when the key is present, append otherwise. -/
def alSet : List (Nat × Nat) → Nat → Nat → List (Nat × Nat)
  | [], k, v => [(k, v)]
  | (k0, v0) :: rest, k, v =>
      if k0 = k then (k, v) :: rest else (k0, v0) :: alSet rest k v

/-- Python dict lookup on an association list. -/
def alGet : List (Nat × Nat) → Nat → Option Nat
  | [], _ => none
  | (k0, v0) :: rest, k => if k0 = k then some v0 else alGet rest k

/-- The keys of an association list. -/
def alKeys (l : List (Nat × Nat)) : List Nat := l.map Prod.fst

/-- widget.connect(signal, handler): allocate a fresh handler id, record
the connection, return the id. -/
def connectSig (st : GState) (w : Nat) (s : Signal) : GState × Nat :=
  ({ st with active := st.active ++ [⟨w, s, st.next⟩], next := st.next + 1 }, st.next)

/-- Does a (widget, handler) pair match an active connection? -/
def pMatch (p : Nat × Nat) (c : Conn) : Bool :=
  decide (c.cw = p.1 ∧ c.ch = p.2)

/-- widget.disconnect(handler): remove the connection with this widget and
handler id. -/
def disconnectW (st : GState) (w h : Nat) : GState :=
  { st with active := st.active.filter (fun c => ! pMatch (w, h) c) }

/-- Disconnect every (widget, handler) pair of a dictionary, in order. -/
def disconnectList (st : GState) : List (Nat × Nat) → GState
  | [] => st
  | p :: ps => disconnectList (disconnectW st p.1 p.2) ps

/-- PointerFocusWindowHelper._connect_notebooks: connect each notebook to
the page-added signal and record the handler in _handlers_per_notebook. -/
def connectNotebooks (st : GState) : List Widget → GState
  | [] => st
  | nb :: rest =>
      let p := connectSig st nb.wid Signal.pageAdded
      connectNotebooks { p.1 with hpn := alSet p.1.hpn nb.wid p.2 } rest

/-- PointerFocusWindowHelper._connect_focusables: connect each focusable to
the enter-notify-event signal and record the handler in
_handlers_per_focusable (add_events has no effect on this state). -/
def connectFocusables (st : GState) : List Widget → GState
  | [] => st
  | f :: rest =>
      let p := connectSig st f.wid Signal.enterNotify
      connectFocusables { p.1 with hpf := alSet p.1.hpf f.wid p.2 } rest

/-- PointerFocusWindowHelper._disconnect_notebooks: disconnect every
recorded notebook handler, then reset the dictionary. -/
def disconnectNotebooks (st : GState) : GState :=
  { disconnectList st st.hpn with hpn := [] }

/-- PointerFocusWindowHelper._disconnect_focusables: disconnect every
recorded focusable handler, then reset the dictionary. -/
def disconnectFocusables (st : GState) : GState :=
  { disconnectList st st.hpf with hpf := [] }

/-- PointerFocusWindowHelper.activate: collect the notebooks of the window,
connect them, collect the focusables of every notebook (a set union), and
connect those. -/
def helperActivate (window : Widget) (st : GState) : GState :=
  let nbs := dedupIds (getNotebooks window)
  let st1 := connectNotebooks st nbs
  connectFocusables st1 (dedupIds (collectFocusables nbs))

/-- PointerFocusWindowHelper.deactivate: disconnect the notebook handlers,
then the focusable handlers. -/
def helperDeactivate (st : GState) : GState :=
  disconnectFocusables (disconnectNotebooks st)

/-- PointerFocusWindowHelper._on_page_added: collect the focusables of the
new page and connect them. -/
def onPageAdded (st : GState) (child : Widget) : GState :=
  connectFocusables st (dedupIds (getFocusables child))

/-- Apply a function n times. -/
def applyN (f : GState → GState) : Nat → GState → GState
  | 0, s => s
  | n + 1, s => applyN f n (f s)

/-- Number of active page-added connections on a widget. -/
def paCount (st : GState) (nb : Nat) : Nat :=
  (st.active.filter (fun c => decide (c.cw = nb ∧ c.csig = Signal.pageAdded))).length

/-- GTK delivery of a page-added signal on a notebook: the helper callback
_on_page_added runs once for each active connection on that notebook. -/
def deliverPageAdded (st : GState) (nb : Nat) (child : Widget) : GState :=
  applyN (fun s => onPageAdded s child) (paCount st nb) st

/-- PointerFocusWindowHelper._on_enter_notify_event: the entered widget
grabs the keyboard focus; the result lists the widgets on which grab_focus
is invoked. -/
def onEnterNotifyEvent (w : Nat) : List Nat := [w]

/-- GTK delivery of an enter-notify-event on a widget: the helper callback
runs once per active enter-notify-event connection on that widget, each run
receiving the connection's widget; the result is the list of grab_focus
targets. -/
def deliverEnter (st : GState) (w : Nat) : List Nat :=
  (st.active.filter (fun c => decide (c.cw = w ∧ c.csig = Signal.enterNotify))).foldr
    (fun c acc => onEnterNotifyEvent c.cw ++ acc) []

/-- An event in the life of one PointerFocusWindowHelper. -/
inductive Ev : Type where
  | activate : Ev
  | pageAdded : Nat → Widget → Ev
  | deactivate : Ev

/-- Apply one event to the helper state. -/
def applyEv (window : Widget) (st : GState) : Ev → GState
  | .activate => helperActivate window st
  | .pageAdded nb child => deliverPageAdded st nb child
  | .deactivate => helperDeactivate st

/-- Run a sequence of events from a state. -/
def runEvs (window : Widget) (st : GState) : List Ev → GState
  | [] => st
  | e :: es => runEvs window (applyEv window st e) es

/-- Run a sequence of events from the freshly initialized helper. -/
def run (window : Widget) (evs : List Ev) : GState :=
  runEvs window initGState evs

/-- Well-formed event sequences: activate happens only from the pristine
state (the host calls it once per window), and each delivered page is a
fresh widget tree, with distinct object identities, none of whose focusable
widgets is already tracked. -/
def freshOk (window : Widget) : GState → List Ev → Bool
  | _, [] => true
  | st, Ev.activate :: r =>
      decide ((allIds window).Nodup) && decide (st = initGState) &&
        freshOk window (applyEv window st Ev.activate) r
  | st, Ev.pageAdded nb child :: r =>
      decide ((allIds child).Nodup) &&
        (getFocusables child).all (fun f => decide (f.wid ∉ alKeys st.hpf)) &&
        freshOk window (applyEv window st (Ev.pageAdded nb child)) r
  | st, Ev.deactivate :: r =>
      freshOk window (applyEv window st Ev.deactivate) r

/-- State of the PointerFocusPlugin object: the _instances dictionary from
window identity to the helper state for that window. -/
structure PluginState : Type where
  instances : List (Nat × GState)
deriving DecidableEq

/-- Dict lookup in the _instances dictionary. -/
def alGetG : List (Nat × GState) → Nat → Option GState
  | [], _ => none
  | (k0, v0) :: rest, k => if k0 = k then some v0 else alGetG rest k

/-- Dict assignment in the _instances dictionary. -/
def alSetG : List (Nat × GState) → Nat → GState → List (Nat × GState)
  | [], k, v => [(k, v)]
  | (k0, v0) :: rest, k, v =>
      if k0 = k then (k, v) :: rest else (k0, v0) :: alSetG rest k v

/-- Dict pop in the _instances dictionary. -/
def alRemoveG : List (Nat × GState) → Nat → List (Nat × GState)
  | [], _ => []
  | (k0, v0) :: rest, k =>
      if k0 = k then rest else (k0, v0) :: alRemoveG rest k

/-- PointerFocusPlugin.activate(window): create a helper for the window and
activate it. -/
def pluginActivate (ps : PluginState) (win : Nat) (window : Widget) : PluginState :=
  ⟨alSetG ps.instances win (helperActivate window initGState)⟩

/-- PointerFocusPlugin.deactivate(window): look the helper up (a missing
key raises KeyError before anything is mutated), deactivate it, pop it.
The third component is the final state of the popped helper. -/
def pluginDeactivate (ps : PluginState) (win : Nat) :
    Option PyErr × PluginState × Option GState :=
  match alGetG ps.instances win with
  | none => (some PyErr.keyError, ps, none)
  | some g => (none, ⟨alRemoveG ps.instances win⟩, some (helperDeactivate g))


/-- Is a widget a notebook on which get_children succeeds? -/
def nbPred (x : Widget) : Bool := x.isNotebook && (x.childrenOpt).isSome
/-- The connections produced by a connect loop over a widget list, with
handler ids counting up from n. -/
def enumConns (s : Signal) : List Widget → Nat → List Conn
  | [], _ => []
  | w :: ws, n => ⟨w.wid, s, n⟩ :: enumConns s ws (n + 1)
/-- The (widget, handler) projection of a connection. -/
def projConn (c : Conn) : Nat × Nat := (c.cw, c.ch)
def cexInner : Widget := .node 2 true false none
def cexNotebook : Widget := .node 1 false true (some [cexInner])
def cexWindow : Widget := .node 0 false false (some [cexNotebook])
def cexTrace : List Ev := [Ev.activate, Ev.pageAdded 1 cexInner]
/-- The identities of the notebooks found in the window at activation. -/
def nbIds (window : Widget) : List Nat := (getNotebooks window).map Widget.wid
/-- The inductive invariant of a well-formed helper run: the two
dictionaries record exactly the active page-added and enter-notify-event
connections, handler ids are distinct and below the counter, and each
dictionary has pairwise distinct keys. -/
def HelperInv (st : GState) : Prop :=
  st.hpn = (st.active.filter (fun c => decide (c.csig = Signal.pageAdded))).map projConn ∧
  st.hpf = (st.active.filter (fun c => decide (c.csig = Signal.enterNotify))).map projConn ∧
  (st.active.map Conn.ch).Nodup ∧
  (∀ c ∈ st.active, c.ch < st.next) ∧
  (alKeys st.hpn).Nodup ∧
  (alKeys st.hpf).Nodup

mutual
theorem getFocusables_eq : ∀ (w : Widget),
    getFocusables w = (specSubtree w).filter Widget.canFocus
  | .node i cf nb none => by
      simp only [getFocusables, specSubtree, List.filter, Widget.canFocus]
      cases cf <;> simp
  | .node i cf nb (some cs) => by
      rw [getFocusables, specSubtree, getFocusablesList_eq cs]
      cases cf <;> simp [List.filter, Widget.canFocus]
theorem getFocusablesList_eq : ∀ (l : List Widget),
    getFocusablesList l = (specSubtreeList l).filter Widget.canFocus
  | [] => rfl
  | c :: cs => by
      rw [getFocusablesList, specSubtreeList, List.filter_append,
        getFocusables_eq c, getFocusablesList_eq cs]
end


mutual
theorem getNotebooks_eq : ∀ (w : Widget),
    getNotebooks w = (specSubtree w).filter nbPred
  | .node i cf nb none => by
      simp [getNotebooks, specSubtree, List.filter, nbPred, Widget.isNotebook, Widget.childrenOpt]
  | .node i cf nb (some cs) => by
      rw [getNotebooks, specSubtree, getNotebooksList_eq cs]
      cases nb <;> simp [List.filter, nbPred, Widget.isNotebook, Widget.childrenOpt]
theorem getNotebooksList_eq : ∀ (l : List Widget),
    getNotebooksList l = (specSubtreeList l).filter nbPred
  | [] => rfl
  | c :: cs => by
      rw [getNotebooksList, specSubtreeList, List.filter_append,
        getNotebooks_eq c, getNotebooksList_eq cs]
end

mutual
theorem getNotebooksE_eq : ∀ (w : Widget),
    getNotebooksE w = Except.ok (getNotebooks w)
  | .node i cf nb none => rfl
  | .node i cf nb (some cs) => by
      rw [getNotebooksE, getNotebooksListE_eq cs, getNotebooks]
theorem getNotebooksListE_eq : ∀ (l : List Widget),
    getNotebooksListE l = Except.ok (getNotebooksList l)
  | [] => rfl
  | c :: cs => by
      rw [getNotebooksListE, getNotebooksE_eq c, getNotebooksListE_eq cs, getNotebooksList]
end

mutual
theorem getFocusablesE_eq : ∀ (w : Widget),
    getFocusablesE w = Except.ok (getFocusables w)
  | .node i cf nb none => rfl
  | .node i cf nb (some cs) => by
      rw [getFocusablesE, getFocusablesListE_eq cs, getFocusables]
theorem getFocusablesListE_eq : ∀ (l : List Widget),
    getFocusablesListE l = Except.ok (getFocusablesList l)
  | [] => rfl
  | c :: cs => by
      rw [getFocusablesListE, getFocusablesE_eq c, getFocusablesListE_eq cs, getFocusablesList]
end

theorem sizeW_pos : ∀ (w : Widget), 1 ≤ sizeW w
  | .node _ _ _ none => le_refl 1
  | .node _ _ _ (some _) => Nat.le_add_right 1 _

theorem getNotebooksF_complete :
    ∀ (n : Nat) (w : Widget), sizeW w ≤ n → getNotebooksF n w = some (getNotebooks w) := by
  intro n
  induction n with
  | zero =>
      intro w hw
      exact absurd (le_trans (sizeW_pos w) hw) (by decide)
  | succ m ih =>
      have hlist : ∀ (l : List Widget), sizeL l ≤ m →
          getNotebooksF.getNotebooksListF m l = some (getNotebooksList l) := by
        intro l
        induction l with
        | nil => intro _; rfl
        | cons c cs ihl =>
            intro hl
            rw [sizeL] at hl
            rw [getNotebooksF.getNotebooksListF,
              ih c (le_trans (Nat.le_add_right _ _) hl),
              ihl (le_trans (Nat.le_add_left _ _) hl), getNotebooksList]
      intro w hw
      match w with
      | .node i cf nb none => rfl
      | .node i cf nb (some cs) =>
          rw [sizeW] at hw
          rw [getNotebooksF, hlist cs (by omega), getNotebooks]

theorem getFocusablesF_complete :
    ∀ (n : Nat) (w : Widget), sizeW w ≤ n → getFocusablesF n w = some (getFocusables w) := by
  intro n
  induction n with
  | zero =>
      intro w hw
      exact absurd (le_trans (sizeW_pos w) hw) (by decide)
  | succ m ih =>
      have hlist : ∀ (l : List Widget), sizeL l ≤ m →
          getFocusablesF.getFocusablesListF m l = some (getFocusablesList l) := by
        intro l
        induction l with
        | nil => intro _; rfl
        | cons c cs ihl =>
            intro hl
            rw [sizeL] at hl
            rw [getFocusablesF.getFocusablesListF,
              ih c (le_trans (Nat.le_add_right _ _) hl),
              ihl (le_trans (Nat.le_add_left _ _) hl), getFocusablesList]
      intro w hw
      match w with
      | .node i cf nb none => rfl
      | .node i cf nb (some cs) =>
          rw [sizeW] at hw
          rw [getFocusablesF, hlist cs (by omega), getFocusables]

/-- C4: _get_focusables(w) returns exactly the set of widgets in the subtree
rooted at w whose can_focus property is true, where the subtree contains w
and, for each widget in it that exposes get_children, all of that widget's
children recursively. -/
theorem c4_getFocusables_exact (w x : Widget) :
    x ∈ getFocusables w ↔ x ∈ specSubtree w ∧ x.canFocus = true := by
  rw [getFocusables_eq, List.mem_filter]

/-- C10: _get_notebooks and _get_focusables terminate on every finite
acyclic widget tree: the fuel-bounded mirror of each recursion completes
with fuel equal to the size of the tree and computes the same result. -/
theorem c10_term (w : Widget) :
    getNotebooksF (sizeW w) w = some (getNotebooks w) ∧
    getFocusablesF (sizeW w) w = some (getFocusables w) :=
  ⟨getNotebooksF_complete (sizeW w) w (le_refl _),
   getFocusablesF_complete (sizeW w) w (le_refl _)⟩

/-- C7: during widget collection, a widget lacking an expected capability is
silently skipped: for every widget tree in which some widget lacks
get_children, both traversals complete without propagating an error and
return the result for the remaining widgets. -/
theorem c7_silent (w : Widget)
    (_h : ∃ x ∈ specSubtree w, getChildrenOp x = Except.error PyErr.attrError) :
    getNotebooksE w = Except.ok (getNotebooks w) ∧
    getFocusablesE w = Except.ok (getFocusables w) :=
  ⟨getNotebooksE_eq w, getFocusablesE_eq w⟩

/-- Witness for C7 on a tree containing a widget without get_children. -/
theorem c7_witness :
    (∃ x ∈ specSubtree (Widget.node 0 false false (some [Widget.node 1 true false none])),
      getChildrenOp x = Except.error PyErr.attrError) ∧
    getNotebooksE (Widget.node 0 false false (some [Widget.node 1 true false none])) =
      Except.ok (getNotebooks (Widget.node 0 false false (some [Widget.node 1 true false none]))) ∧
    getFocusablesE (Widget.node 0 false false (some [Widget.node 1 true false none])) =
      Except.ok (getFocusables (Widget.node 0 false false (some [Widget.node 1 true false none]))) :=
  ⟨⟨Widget.node 1 true false none, by simp [specSubtree, specSubtreeList], rfl⟩,
   c7_silent _ ⟨Widget.node 1 true false none, by simp [specSubtree, specSubtreeList], rfl⟩⟩

theorem alSet_fresh : ∀ (l : List (Nat × Nat)) (k v : Nat),
    k ∉ alKeys l → alSet l k v = l ++ [(k, v)]
  | [], k, v, _ => rfl
  | (k0, v0) :: rest, k, v, h => by
      have hk : ¬ k0 = k := by
        intro he
        exact h (by simp [alKeys, he])
      rw [alSet, if_neg hk, alSet_fresh rest k v (fun hm => h (by simp [alKeys] at hm ⊢; exact Or.inr hm))]
      rfl

theorem alKeys_alSet_mem : ∀ (l : List (Nat × Nat)) (k v : Nat),
    k ∈ alKeys (alSet l k v)
  | [], k, v => by simp [alSet, alKeys]
  | (k0, v0) :: rest, k, v => by
      by_cases hk : k0 = k
      · simp [alSet, hk, alKeys]
      · simp only [alSet, if_neg hk, alKeys, List.map_cons, List.mem_cons]
        exact Or.inr (alKeys_alSet_mem rest k v)

theorem alKeys_alSet_mono : ∀ (l : List (Nat × Nat)) (k v x : Nat),
    x ∈ alKeys l → x ∈ alKeys (alSet l k v)
  | [], _, _, _, hx => by simp [alKeys] at hx
  | (k0, v0) :: rest, k, v, x, hx => by
      simp only [alKeys, List.map_cons, List.mem_cons] at hx
      by_cases hk : k0 = k
      · subst hk
        rw [alSet, if_pos rfl]
        simp only [alKeys, List.map_cons, List.mem_cons]
        exact hx
      · simp only [alSet, if_neg hk, alKeys, List.map_cons, List.mem_cons]
        rcases hx with hx | hx
        · exact Or.inl hx
        · exact Or.inr (alKeys_alSet_mono rest k v x hx)

theorem dedupIdsAux_subset : ∀ (seen : List Nat) (l : List Widget) (w : Widget),
    w ∈ dedupIdsAux seen l → w ∈ l
  | seen, [], w, h => by simp [dedupIdsAux] at h
  | seen, x :: xs, w, h => by
      by_cases hm : x.wid ∈ seen
      · simp only [dedupIdsAux, if_pos hm] at h
        exact List.mem_cons_of_mem x (dedupIdsAux_subset seen xs w h)
      · simp only [dedupIdsAux, if_neg hm, List.mem_cons] at h
        rcases h with h | h
        · exact h ▸ List.mem_cons_self x xs
        · exact List.mem_cons_of_mem x (dedupIdsAux_subset _ xs w h)

theorem dedupIdsAux_ids_mem : ∀ (seen : List Nat) (l : List Widget) (w : Widget),
    w ∈ l → w.wid ∈ seen ∨ w.wid ∈ (dedupIdsAux seen l).map Widget.wid
  | seen, [], w, h => by simp at h
  | seen, x :: xs, w, h => by
      rcases List.mem_cons.mp h with h | h
      · subst h
        by_cases hm : w.wid ∈ seen
        · exact Or.inl hm
        · simp only [dedupIdsAux, if_neg hm, List.map_cons, List.mem_cons]
          exact Or.inr (Or.inl (by simp))
      · by_cases hm : x.wid ∈ seen
        · simp only [dedupIdsAux, if_pos hm]
          exact dedupIdsAux_ids_mem seen xs w h
        · simp only [dedupIdsAux, if_neg hm, List.map_cons, List.mem_cons]
          rcases dedupIdsAux_ids_mem (x.wid :: seen) xs w h with hs | hs
          · rcases List.mem_cons.mp hs with hs | hs
            · exact Or.inr (Or.inl hs)
            · exact Or.inl hs
          · exact Or.inr (Or.inr hs)

theorem dedupIdsAux_ids_nodup : ∀ (seen : List Nat) (l : List Widget),
    (∀ x ∈ (dedupIdsAux seen l).map Widget.wid, x ∉ seen) ∧
      ((dedupIdsAux seen l).map Widget.wid).Nodup
  | seen, [] => by simp [dedupIdsAux]
  | seen, x :: xs => by
      by_cases hm : x.wid ∈ seen
      · simpa only [dedupIdsAux, if_pos hm] using dedupIdsAux_ids_nodup seen xs
      · have ih := dedupIdsAux_ids_nodup (x.wid :: seen) xs
        simp only [dedupIdsAux, if_neg hm, List.map_cons, List.nodup_cons]
        refine ⟨?_, ?_, ih.2⟩
        · intro y hy
          rcases List.mem_cons.mp hy with hy | hy
          · exact hy ▸ hm
          · intro hys
            exact (ih.1 y hy) (List.mem_cons_of_mem _ hys)
        · intro hx
          exact (ih.1 x.wid hx) (List.mem_cons_self _ _)

theorem dedupIds_ids_nodup (l : List Widget) : ((dedupIds l).map Widget.wid).Nodup :=
  (dedupIdsAux_ids_nodup [] l).2

theorem dedupIds_ids_mem (l : List Widget) (w : Widget) (h : w ∈ l) :
    w.wid ∈ (dedupIds l).map Widget.wid := by
  rcases dedupIdsAux_ids_mem [] l w h with hs | hs
  · simp at hs
  · exact hs

theorem dedupIds_subset (l : List Widget) (w : Widget) (h : w ∈ dedupIds l) : w ∈ l :=
  dedupIdsAux_subset [] l w h



theorem enumConns_ch : ∀ (s : Signal) (l : List Widget) (n : Nat),
    (enumConns s l n).map Conn.ch = List.range' n l.length
  | s, [], n => rfl
  | s, w :: ws, n => by
      rw [enumConns, List.map_cons, enumConns_ch s ws (n + 1), List.length_cons,
        List.range'_succ]

theorem enumConns_cw : ∀ (s : Signal) (l : List Widget) (n : Nat),
    (enumConns s l n).map Conn.cw = l.map Widget.wid
  | s, [], n => rfl
  | s, w :: ws, n => by
      rw [enumConns, List.map_cons, List.map_cons, enumConns_cw s ws (n + 1)]

theorem enumConns_keys : ∀ (s : Signal) (l : List Widget) (n : Nat),
    alKeys ((enumConns s l n).map projConn) = l.map Widget.wid
  | s, [], n => rfl
  | s, w :: ws, n => by
      simp only [enumConns, List.map_cons, alKeys, projConn, List.map]
      exact congrArg (List.cons w.wid) (enumConns_keys s ws (n + 1))

theorem enumConns_sig : ∀ (s : Signal) (l : List Widget) (n : Nat),
    ∀ c ∈ enumConns s l n, c.csig = s
  | s, [], n => by simp [enumConns]
  | s, w :: ws, n => by
      intro c hc
      rcases List.mem_cons.mp hc with hc | hc
      · rw [hc]
      · exact enumConns_sig s ws (n + 1) c hc

theorem enumConns_filter_sig (s s' : Signal) (l : List Widget) (n : Nat) :
    (enumConns s l n).filter (fun c => decide (c.csig = s')) =
      if s = s' then enumConns s l n else [] := by
  by_cases h : s = s'
  · rw [if_pos h]
    apply List.filter_eq_self.mpr
    intro c hc
    simp [enumConns_sig s l n c hc, h]
  · rw [if_neg h]
    apply List.filter_eq_nil_iff.mpr
    intro c hc
    simp [enumConns_sig s l n c hc, h]

theorem enumConns_ch_lt : ∀ (s : Signal) (l : List Widget) (n : Nat),
    ∀ c ∈ enumConns s l n, n ≤ c.ch ∧ c.ch < n + l.length := by
  intro s l n c hc
  have : c.ch ∈ (enumConns s l n).map Conn.ch := List.mem_map_of_mem Conn.ch hc
  rw [enumConns_ch] at this
  exact List.mem_range'_1.mp this

/-- Closed form of _connect_focusables on a list of widgets with fresh,
pairwise-distinct identities. -/
theorem connectFocusables_spec : ∀ (l : List Widget) (st : GState),
    (∀ f ∈ l, f.wid ∉ alKeys st.hpf) → (l.map Widget.wid).Nodup →
    connectFocusables st l =
      { hpn := st.hpn,
        hpf := st.hpf ++ (enumConns Signal.enterNotify l st.next).map projConn,
        active := st.active ++ enumConns Signal.enterNotify l st.next,
        next := st.next + l.length }
  | [], st, _, _ => by simp [connectFocusables, enumConns]
  | f :: rest, st, hfresh, hnodup => by
      rw [connectFocusables]
      have hfw : f.wid ∉ alKeys st.hpf := hfresh f (List.mem_cons_self f rest)
      have hset : alSet st.hpf f.wid st.next = st.hpf ++ [(f.wid, st.next)] :=
        alSet_fresh st.hpf f.wid st.next hfw
      simp only [connectSig]
      rw [hset]
      have hnodup' : (rest.map Widget.wid).Nodup := (List.nodup_cons.mp (by simpa using hnodup)).2
      have hfresh' : ∀ g ∈ rest, g.wid ∉ alKeys (st.hpf ++ [(f.wid, st.next)]) := by
        intro g hg hmem
        simp only [alKeys, List.map_append, List.mem_append] at hmem
        rcases hmem with hmem | hmem
        · exact hfresh g (List.mem_cons_of_mem f hg) hmem
        · simp at hmem
          have : f.wid ∉ rest.map Widget.wid := (List.nodup_cons.mp (by simpa using hnodup)).1
          exact this (hmem ▸ List.mem_map_of_mem Widget.wid hg)
      rw [connectFocusables_spec rest _ hfresh' hnodup']
      simp only [enumConns, List.map_cons, projConn]
      congr 1
      · simp
      · simp
      · simp only [List.length_cons]
        omega

/-- Closed form of _connect_notebooks on a list of widgets with fresh,
pairwise-distinct identities. -/
theorem connectNotebooks_spec : ∀ (l : List Widget) (st : GState),
    (∀ f ∈ l, f.wid ∉ alKeys st.hpn) → (l.map Widget.wid).Nodup →
    connectNotebooks st l =
      { hpn := st.hpn ++ (enumConns Signal.pageAdded l st.next).map projConn,
        hpf := st.hpf,
        active := st.active ++ enumConns Signal.pageAdded l st.next,
        next := st.next + l.length }
  | [], st, _, _ => by simp [connectNotebooks, enumConns]
  | f :: rest, st, hfresh, hnodup => by
      rw [connectNotebooks]
      have hfw : f.wid ∉ alKeys st.hpn := hfresh f (List.mem_cons_self f rest)
      have hset : alSet st.hpn f.wid st.next = st.hpn ++ [(f.wid, st.next)] :=
        alSet_fresh st.hpn f.wid st.next hfw
      simp only [connectSig]
      rw [hset]
      have hnodup' : (rest.map Widget.wid).Nodup := (List.nodup_cons.mp (by simpa using hnodup)).2
      have hfresh' : ∀ g ∈ rest, g.wid ∉ alKeys (st.hpn ++ [(f.wid, st.next)]) := by
        intro g hg hmem
        simp only [alKeys, List.map_append, List.mem_append] at hmem
        rcases hmem with hmem | hmem
        · exact hfresh g (List.mem_cons_of_mem f hg) hmem
        · simp at hmem
          have : f.wid ∉ rest.map Widget.wid := (List.nodup_cons.mp (by simpa using hnodup)).1
          exact this (hmem ▸ List.mem_map_of_mem Widget.wid hg)
      rw [connectNotebooks_spec rest _ hfresh' hnodup']
      simp only [enumConns, List.map_cons, projConn]
      congr 1
      · simp
      · simp
      · simp only [List.length_cons]
        omega

theorem connectFocusables_hpn : ∀ (l : List Widget) (st : GState),
    (connectFocusables st l).hpn = st.hpn
  | [], st => rfl
  | f :: rest, st => connectFocusables_hpn rest _

theorem connectNotebooks_hpf : ∀ (l : List Widget) (st : GState),
    (connectNotebooks st l).hpf = st.hpf
  | [], st => rfl
  | f :: rest, st => connectNotebooks_hpf rest _

theorem connectFocusables_keys_mono : ∀ (l : List Widget) (st : GState) (k : Nat),
    k ∈ alKeys st.hpf → k ∈ alKeys (connectFocusables st l).hpf
  | [], st, k, hk => hk
  | f :: rest, st, k, hk =>
      connectFocusables_keys_mono rest _ k (alKeys_alSet_mono st.hpf f.wid st.next k hk)

theorem connectNotebooks_keys_mono : ∀ (l : List Widget) (st : GState) (k : Nat),
    k ∈ alKeys st.hpn → k ∈ alKeys (connectNotebooks st l).hpn
  | [], st, k, hk => hk
  | f :: rest, st, k, hk =>
      connectNotebooks_keys_mono rest _ k (alKeys_alSet_mono st.hpn f.wid st.next k hk)

theorem connectFocusables_keys_new : ∀ (l : List Widget) (st : GState),
    ∀ f ∈ l, f.wid ∈ alKeys (connectFocusables st l).hpf
  | [], st => by simp
  | f :: rest, st => by
      intro g hg
      rcases List.mem_cons.mp hg with hg | hg
      · subst hg
        exact connectFocusables_keys_mono rest _ g.wid
          (alKeys_alSet_mem st.hpf g.wid st.next)
      · exact connectFocusables_keys_new rest _ g hg

theorem connectFocusables_active_mono : ∀ (l : List Widget) (st : GState),
    ∀ c ∈ (connectFocusables st l).active, c ∈ st.active ∨ c.csig = Signal.enterNotify
  | [], st => fun c hc => Or.inl hc
  | f :: rest, st => by
      intro c hc
      rcases connectFocusables_active_mono rest _ c hc with hc' | hc'
      · simp only [connectSig] at hc'
        rcases List.mem_append.mp hc' with hc'' | hc''
        · exact Or.inl hc''
        · simp at hc''
          subst hc''
          exact Or.inr rfl
      · exact Or.inr hc'

theorem connectNotebooks_active_new : ∀ (l : List Widget) (st : GState),
    ∀ c ∈ (connectNotebooks st l).active,
      c ∈ st.active ∨ (c.csig = Signal.pageAdded ∧ c.cw ∈ l.map Widget.wid)
  | [], st => fun c hc => Or.inl hc
  | f :: rest, st => by
      intro c hc
      rcases connectNotebooks_active_new rest _ c hc with hc' | hc'
      · simp only [connectSig] at hc'
        rcases List.mem_append.mp hc' with hc'' | hc''
        · exact Or.inl hc''
        · simp at hc''
          subst hc''
          exact Or.inr ⟨rfl, by simp⟩
      · exact Or.inr ⟨hc'.1, by simp [hc'.2]⟩

theorem connectNotebooks_keys_new : ∀ (l : List Widget) (st : GState),
    ∀ k ∈ alKeys (connectNotebooks st l).hpn, k ∈ alKeys st.hpn ∨ k ∈ l.map Widget.wid
  | [], st => fun k hk => Or.inl hk
  | f :: rest, st => by
      intro k hk
      rcases connectNotebooks_keys_new rest _ k hk with hk' | hk' 
      · by_cases he : k = f.wid
        · exact Or.inr (by simp [he])
        · left
          -- k is a key of alSet st.hpn f.wid st.next and differs from f.wid
          have : ∀ (l0 : List (Nat × Nat)), k ∈ alKeys (alSet l0 f.wid st.next) → k ∈ alKeys l0 := by
            intro l0
            induction l0 with
            | nil => intro h0; simp [alSet, alKeys] at h0; exact absurd h0 he
            | cons p ps ih =>
                intro h0
                by_cases hp : p.1 = f.wid
                · rw [show alSet (p :: ps) f.wid st.next = (f.wid, st.next) :: ps by
                      simp [alSet, hp]] at h0
                  simp only [alKeys, List.map_cons, List.mem_cons] at h0
                  rcases h0 with h0 | h0
                  · exact absurd h0 he
                  · simp only [alKeys, List.map_cons, List.mem_cons]
                    exact Or.inr h0
                · rw [show alSet (p :: ps) f.wid st.next = p :: alSet ps f.wid st.next by
                      simp [alSet, hp]] at h0
                  simp only [alKeys, List.map_cons, List.mem_cons] at h0
                  rcases h0 with h0 | h0
                  · simp [alKeys, h0]
                  · simp only [alKeys, List.map_cons, List.mem_cons]
                    exact Or.inr (ih h0)
          exact this st.hpn hk'
      · exact Or.inr (by simp [hk'])

theorem disconnectList_spec : ∀ (l : List (Nat × Nat)) (st : GState),
    (disconnectList st l).active =
      st.active.filter (fun c => l.all (fun p => ! pMatch p c)) ∧
    (disconnectList st l).hpn = st.hpn ∧
    (disconnectList st l).hpf = st.hpf ∧
    (disconnectList st l).next = st.next
  | [], st => by simp [disconnectList]
  | p :: ps, st => by
      rw [disconnectList]
      have ih := disconnectList_spec ps (disconnectW st p.1 p.2)
      refine ⟨?_, ih.2.1, ih.2.2⟩
      rw [ih.1]
      simp only [disconnectW, List.filter_filter]
      apply List.filter_congr
      intro c _
      simp only [List.all_cons]
      rw [Bool.and_comm]

theorem applyN_keys_mono (child : Widget) : ∀ (n : Nat) (st : GState) (k : Nat),
    k ∈ alKeys st.hpf → k ∈ alKeys ((applyN (fun s => onPageAdded s child) n st).hpf)
  | 0, st, k, hk => hk
  | n + 1, st, k, hk =>
      applyN_keys_mono child n _ k (connectFocusables_keys_mono _ st k hk)

theorem applyN_hpn (child : Widget) : ∀ (n : Nat) (st : GState),
    (applyN (fun s => onPageAdded s child) n st).hpn = st.hpn
  | 0, st => rfl
  | n + 1, st => by
      rw [applyN, applyN_hpn child n _]
      exact connectFocusables_hpn _ st

theorem applyN_active_mono (child : Widget) : ∀ (n : Nat) (st : GState),
    ∀ c ∈ (applyN (fun s => onPageAdded s child) n st).active,
      c ∈ st.active ∨ c.csig = Signal.enterNotify
  | 0, st => fun c hc => Or.inl hc
  | n + 1, st => by
      intro c hc
      rcases applyN_active_mono child n _ c hc with hc' | hc'
      · exact connectFocusables_active_mono _ st c hc'
      · exact Or.inr hc'

theorem runEvs_append (window : Widget) : ∀ (l1 l2 : List Ev) (st : GState),
    runEvs window st (l1 ++ l2) = runEvs window (runEvs window st l1) l2
  | [], l2, st => rfl
  | e :: es, l2, st => by
      rw [List.cons_append, runEvs, runEvs, runEvs_append window es l2 _]

theorem foldr_enter : ∀ (l : List Conn),
    l.foldr (fun c acc => onEnterNotifyEvent c.cw ++ acc) [] = l.map Conn.cw
  | [] => rfl
  | c :: cs => by
      rw [List.foldr_cons, foldr_enter cs, List.map_cons]
      rfl

theorem deliverEnter_eq_map (st : GState) (w : Nat) :
    deliverEnter st w =
      (st.active.filter (fun c => decide (c.cw = w ∧ c.csig = Signal.enterNotify))).map Conn.cw :=
  foldr_enter _

/-- C1: for every widget the helper has subscribed to enter-notify-event,
delivery of a pointer-enter event for that widget invokes grab_focus on the
entered widget and on no other widget. -/
theorem c1_focus_follows (st : GState) (w h : Nat)
    (hsub : (⟨w, Signal.enterNotify, h⟩ : Conn) ∈ st.active) :
    deliverEnter st w ≠ [] ∧ ∀ g ∈ deliverEnter st w, g = w := by
  rw [deliverEnter_eq_map]
  constructor
  · apply List.ne_nil_of_mem (a := w)
    apply List.mem_map_of_mem Conn.cw (a := (⟨w, Signal.enterNotify, h⟩ : Conn))
    exact List.mem_filter.mpr ⟨hsub, by simp⟩
  · intro g hg
    rcases List.mem_map.mp hg with ⟨c, hc, hcg⟩
    have := (List.mem_filter.mp hc).2
    simp only [decide_eq_true_eq] at this
    rw [← hcg, this.1]


/-- Witness for C1 at a concrete activated helper state. -/
theorem c1_focus_follows_witness :
    ((⟨2, Signal.enterNotify, 1⟩ : Conn) ∈ (run cexWindow [Ev.activate]).active) ∧
    (deliverEnter (run cexWindow [Ev.activate]) 2 ≠ [] ∧
      ∀ g ∈ deliverEnter (run cexWindow [Ev.activate]) 2, g = 2) :=
  ⟨by decide, c1_focus_follows (run cexWindow [Ev.activate]) 2 1 (by decide)⟩

/-- C5: when page-added is delivered for a notebook the helper is connected
to, a handler entry is created in _handlers_per_focusable for every
focusable widget in the added page's subtree. -/
theorem c5_page_added_tracks (st : GState) (nb : Nat) (child : Widget) (h : Nat)
    (hconn : (⟨nb, Signal.pageAdded, h⟩ : Conn) ∈ st.active) :
    ∀ f ∈ getFocusables child, f.wid ∈ alKeys (deliverPageAdded st nb child).hpf := by
  intro f hf
  have hcount : 0 < paCount st nb := by
    rw [paCount]
    apply List.length_pos.mpr
    apply List.ne_nil_of_mem (a := (⟨nb, Signal.pageAdded, h⟩ : Conn))
    exact List.mem_filter.mpr ⟨hconn, by simp⟩
  obtain ⟨n, hn⟩ : ∃ n, paCount st nb = n + 1 := ⟨paCount st nb - 1, by omega⟩
  rw [deliverPageAdded, hn, applyN]
  apply applyN_keys_mono
  rw [onPageAdded]
  have hfw : f.wid ∈ (dedupIds (getFocusables child)).map Widget.wid :=
    dedupIds_ids_mem _ f hf
  rcases List.mem_map.mp hfw with ⟨g, hg, hgw⟩
  rw [← hgw]
  exact connectFocusables_keys_new _ st g hg

/-- Witness for C5 at a concrete activated helper state. -/
theorem c5_page_added_tracks_witness :
    ((⟨1, Signal.pageAdded, 0⟩ : Conn) ∈ (run cexWindow [Ev.activate]).active) ∧
    ∀ f ∈ getFocusables cexInner,
      f.wid ∈ alKeys (deliverPageAdded (run cexWindow [Ev.activate]) 1 cexInner).hpf :=
  ⟨by decide, c5_page_added_tracks (run cexWindow [Ev.activate]) 1 cexInner 0 (by decide)⟩

/-- C9: PointerFocusPlugin.deactivate(window) for an untracked window
raises KeyError rather than being a no-op, and leaves the _instances
mapping unchanged. -/
theorem c9_deactivate_keyerror (ps : PluginState) (win : Nat)
    (h : alGetG ps.instances win = none) :
    pluginDeactivate ps win = (some PyErr.keyError, ps, none) := by
  rw [pluginDeactivate, h]

/-- Witness for C9 on an empty plugin instance table. -/
theorem c9_deactivate_keyerror_witness :
    alGetG (PluginState.mk []).instances 0 = none ∧
    pluginDeactivate (PluginState.mk []) 0 = (some PyErr.keyError, PluginState.mk [], none) :=
  ⟨rfl, c9_deactivate_keyerror (PluginState.mk []) 0 rfl⟩

/-- C6: map entries are removed only on teardown: activate and page-added
delivery never remove keys from either mapping, and after deactivate both
mappings are empty and every handler they recorded is disconnected. -/
theorem c6_removal_only_deactivate (window : Widget) (st : GState) (nb : Nat)
    (child : Widget) (p : Nat × Nat) :
    (∀ k ∈ alKeys st.hpn, k ∈ alKeys (helperActivate window st).hpn) ∧
    (∀ k ∈ alKeys st.hpf, k ∈ alKeys (helperActivate window st).hpf) ∧
    (∀ k ∈ alKeys st.hpn, k ∈ alKeys (deliverPageAdded st nb child).hpn) ∧
    (∀ k ∈ alKeys st.hpf, k ∈ alKeys (deliverPageAdded st nb child).hpf) ∧
    (helperDeactivate st).hpn = [] ∧
    (helperDeactivate st).hpf = [] ∧
    (p ∈ st.hpn ++ st.hpf → ∀ c ∈ (helperDeactivate st).active, pMatch p c = false) := by
  refine ⟨?_, ?_, ?_, ?_, ?_, ?_, ?_⟩
  · intro k hk
    rw [helperActivate]
    rw [connectFocusables_hpn]
    exact connectNotebooks_keys_mono _ st k hk
  · intro k hk
    rw [helperActivate]
    apply connectFocusables_keys_mono
    rw [connectNotebooks_hpf]
    exact hk
  · intro k hk
    rw [deliverPageAdded, applyN_hpn]
    exact hk
  · intro k hk
    rw [deliverPageAdded]
    exact applyN_keys_mono child _ st k hk
  · rw [helperDeactivate, disconnectFocusables]
    exact (disconnectList_spec _ _).2.1
  · rfl
  · intro hp c hc
    rw [helperDeactivate, disconnectFocusables] at hc
    have h2 := (disconnectList_spec (disconnectNotebooks st).hpf (disconnectNotebooks st)).1
    simp only [h2] at hc
    have hc2 := List.mem_filter.mp hc
    have hc3 : c ∈ (disconnectNotebooks st).active := hc2.1
    rw [disconnectNotebooks] at hc2 hc3
    have h1 := (disconnectList_spec st.hpn st).1
    simp only [h1] at hc3
    have hc4 := List.mem_filter.mp hc3
    rcases List.mem_append.mp hp with hp | hp
    · have := List.all_eq_true.mp hc4.2 p hp
      simpa using this
    · have hall : ((disconnectList st st.hpn).hpf.all fun q => ! pMatch q c) = true := hc2.2
      rw [(disconnectList_spec st.hpn st).2.2.1] at hall
      have := List.all_eq_true.mp hall p hp
      simpa using this

/-- Witness for C6 at a concrete activated helper state. -/
theorem c6_removal_only_deactivate_witness :
    ((2, 1) ∈ (run cexWindow [Ev.activate]).hpn ++ (run cexWindow [Ev.activate]).hpf) ∧
    (∀ c ∈ (helperDeactivate (run cexWindow [Ev.activate])).active, pMatch (2, 1) c = false) :=
  ⟨by decide,
   (c6_removal_only_deactivate cexWindow (run cexWindow [Ev.activate]) 1 cexInner
      (2, 1)).2.2.2.2.2.2 (by decide)⟩


theorem dedupIds_ids_sub (l : List Nat) (k : Nat) (ws : List Widget)
    (hl : l = ws.map Widget.wid) (hk : k ∈ (dedupIds ws).map Widget.wid) : k ∈ l := by
  rcases List.mem_map.mp hk with ⟨g, hg, hgw⟩
  rw [hl, ← hgw]
  exact List.mem_map_of_mem Widget.wid (dedupIds_subset ws g hg)

theorem run_pa_inv (window : Widget) : ∀ (evs : List Ev) (st : GState),
    (∀ k ∈ alKeys st.hpn, k ∈ nbIds window) →
    (∀ c ∈ st.active, c.csig = Signal.pageAdded → c.cw ∈ nbIds window) →
    (∀ k ∈ alKeys (runEvs window st evs).hpn, k ∈ nbIds window) ∧
    (∀ c ∈ (runEvs window st evs).active, c.csig = Signal.pageAdded → c.cw ∈ nbIds window)
  | [], st, h1, h2 => ⟨h1, h2⟩
  | Ev.activate :: r, st, h1, h2 => by
      rw [runEvs]
      apply run_pa_inv window r
      · intro k hk
        rw [applyEv, helperActivate, connectFocusables_hpn] at hk
        rcases connectNotebooks_keys_new _ st k hk with hk' | hk'
        · exact h1 k hk'
        · exact dedupIds_ids_sub (nbIds window) k (getNotebooks window) rfl hk'
      · intro c hc hsig
        rw [applyEv, helperActivate] at hc
        rcases connectFocusables_active_mono _ _ c hc with hc' | hc'
        · rcases connectNotebooks_active_new _ st c hc' with hc'' | hc''
          · exact h2 c hc'' hsig
          · exact dedupIds_ids_sub (nbIds window) c.cw (getNotebooks window) rfl hc''.2
        · rw [hsig] at hc'
          exact absurd hc' (by simp)
  | Ev.pageAdded nb child :: r, st, h1, h2 => by
      rw [runEvs]
      apply run_pa_inv window r
      · intro k hk
        rw [applyEv, deliverPageAdded, applyN_hpn] at hk
        exact h1 k hk
      · intro c hc hsig
        rw [applyEv, deliverPageAdded] at hc
        rcases applyN_active_mono child _ st c hc with hc' | hc'
        · exact h2 c hc' hsig
        · rw [hsig] at hc'
          exact absurd hc' (by simp)
  | Ev.deactivate :: r, st, h1, h2 => by
      rw [runEvs]
      apply run_pa_inv window r
      · intro k hk
        rw [applyEv, helperDeactivate, disconnectFocusables] at hk
        have := (disconnectList_spec (disconnectNotebooks st).hpf (disconnectNotebooks st)).2.1
        rw [show ({ disconnectList (disconnectNotebooks st) (disconnectNotebooks st).hpf with
              hpf := [] } : GState).hpn =
            (disconnectList (disconnectNotebooks st) (disconnectNotebooks st).hpf).hpn from rfl,
          this, disconnectNotebooks] at hk
        simp [(disconnectList_spec st.hpn st).2.1, alKeys] at hk
      · intro c hc hsig
        rw [applyEv, helperDeactivate, disconnectFocusables] at hc
        have hact : c ∈ (disconnectList (disconnectNotebooks st) (disconnectNotebooks st).hpf).active := hc
        rw [(disconnectList_spec _ _).1] at hact
        have hc2 := (List.mem_filter.mp hact).1
        rw [disconnectNotebooks] at hc2
        have hc3 : c ∈ (disconnectList st st.hpn).active := hc2
        rw [(disconnectList_spec _ _).1] at hc3
        exact h2 c (List.mem_filter.mp hc3).1 hsig

/-- C8: the notebook mapping only ever contains notebooks discovered in the
window during activate's tree walk, and a page-added event on a notebook
outside that set leaves the helper state completely unchanged. -/
theorem c8_static_notebooks (window : Widget) (evs : List Ev) (nb : Nat) (child : Widget)
    (hnb : nb ∉ nbIds window) :
    (∀ k ∈ alKeys (run window evs).hpn, k ∈ nbIds window) ∧
    run window (evs ++ [Ev.pageAdded nb child]) = run window evs := by
  have hJ := run_pa_inv window evs initGState (by simp [initGState, alKeys]) (by simp [initGState])
  refine ⟨hJ.1, ?_⟩
  rw [run, run, runEvs_append, runEvs, runEvs, applyEv]
  have hzero : paCount (runEvs window initGState evs) nb = 0 := by
    rw [paCount, List.length_eq_zero]
    apply List.filter_eq_nil_iff.mpr
    intro c hc
    simp only [decide_eq_true_eq, Bool.not_eq_true]
    intro hmatch
    exact hnb (hmatch.1 ▸ hJ.2 c hc hmatch.2)
  rw [deliverPageAdded, hzero, applyN]

/-- Witness for C8 with a notebook id absent from the window. -/
theorem c8_static_notebooks_witness :
    (5 ∉ nbIds cexWindow) ∧
    ((∀ k ∈ alKeys (run cexWindow [Ev.activate]).hpn, k ∈ nbIds cexWindow) ∧
      run cexWindow ([Ev.activate] ++ [Ev.pageAdded 5 cexInner]) = run cexWindow [Ev.activate]) :=
  ⟨by decide, c8_static_notebooks cexWindow [Ev.activate] 5 cexInner (by decide)⟩

/-- Counterexample to C2 as stated: after activate, re-delivering
page-added for a page whose focusable widget 2 is already tracked leaves
widget 2 with two active enter-notify-event connections created by the
helper. -/
theorem c2_cex :
    2 ∈ alKeys (run cexWindow cexTrace).hpf ∧
    ((run cexWindow cexTrace).active.filter
      (fun c => decide (c.cw = 2 ∧ c.csig = Signal.enterNotify))).length = 2 := by
  decide

/-- Counterexample to C3 as stated: in the same reachable state the
connection (2, enter-notify-event, 1) is active but its handle is absent
from _handlers_per_focusable, and it survives deactivate. -/
theorem c3_cex :
    ((⟨2, Signal.enterNotify, 1⟩ : Conn) ∈ (run cexWindow cexTrace).active ∧
      (2, 1) ∉ (run cexWindow cexTrace).hpf) ∧
    (run cexWindow (cexTrace ++ [Ev.deactivate])).active =
      [⟨2, Signal.enterNotify, 1⟩] := by
  decide


theorem inv_init : HelperInv initGState := by
  refine ⟨rfl, rfl, ?_, ?_, ?_, ?_⟩ <;> simp [initGState, alKeys]

theorem alKeys_projConns (l : List Conn) : alKeys (l.map projConn) = l.map Conn.cw := by
  simp [alKeys, projConn, List.map_map]

theorem filter_cw_length_le_one : ∀ (m : List Conn), (m.map Conn.cw).Nodup → ∀ (nb : Nat),
    (m.filter (fun c => decide (c.cw = nb))).length ≤ 1 := by
  intro m hm nb
  induction m with
  | nil => simp
  | cons c cs ih =>
      simp only [List.map_cons, List.nodup_cons] at hm
      by_cases hc : c.cw = nb
      · rw [List.filter_cons_of_pos (by simp [hc])]
        have hnil : cs.filter (fun c => decide (c.cw = nb)) = [] := by
          apply List.filter_eq_nil_iff.mpr
          intro a ha
          simp only [decide_eq_true_eq]
          intro haw
          exact hm.1 (hc ▸ haw ▸ List.mem_map_of_mem Conn.cw ha)
        rw [hnil]
        simp
      · rw [List.filter_cons_of_neg (by simp [hc])]
        exact ih hm.2

theorem filter_cw_sig (m : List Conn) (nb : Nat) (s : Signal) :
    m.filter (fun c => decide (c.cw = nb ∧ c.csig = s)) =
      (m.filter (fun c => decide (c.csig = s))).filter (fun c => decide (c.cw = nb)) := by
  rw [List.filter_filter]
  apply List.filter_congr
  intro c _
  by_cases h1 : c.cw = nb <;> by_cases h2 : c.csig = s <;> simp [h1, h2]

theorem inv_count_le_one (st : GState) (hInv : HelperInv st) (w : Nat) (s : Signal) :
    (st.active.filter (fun c => decide (c.cw = w ∧ c.csig = s))).length ≤ 1 := by
  rw [filter_cw_sig]
  apply filter_cw_length_le_one
  · cases s
    · have := hInv.2.2.2.2.1
      rw [hInv.1, alKeys_projConns] at this
      exact this
    · have := hInv.2.2.2.2.2
      rw [hInv.2.1, alKeys_projConns] at this
      exact this

theorem paCount_le_one (st : GState) (hInv : HelperInv st) (nb : Nat) :
    paCount st nb ≤ 1 :=
  inv_count_le_one st hInv nb Signal.pageAdded

theorem inv_connectFocusables (st : GState) (l : List Widget)
    (hInv : HelperInv st) (hfresh : ∀ f ∈ l, f.wid ∉ alKeys st.hpf)
    (hnodup : (l.map Widget.wid).Nodup) :
    HelperInv (connectFocusables st l) := by
  rw [connectFocusables_spec l st hfresh hnodup]
  obtain ⟨h1, h2, h3, h4, h5, h6⟩ := hInv
  refine ⟨?_, ?_, ?_, ?_, ?_, ?_⟩
  · show st.hpn = ((st.active ++ enumConns Signal.enterNotify l st.next).filter
      (fun c => decide (c.csig = Signal.pageAdded))).map projConn
    rw [List.filter_append, enumConns_filter_sig, if_neg (by simp), List.append_nil]
    exact h1
  · show st.hpf ++ (enumConns Signal.enterNotify l st.next).map projConn =
      ((st.active ++ enumConns Signal.enterNotify l st.next).filter
        (fun c => decide (c.csig = Signal.enterNotify))).map projConn
    rw [List.filter_append, enumConns_filter_sig, if_pos rfl, List.map_append, h2]
  · show ((st.active ++ enumConns Signal.enterNotify l st.next).map Conn.ch).Nodup
    rw [List.map_append, enumConns_ch]
    apply List.Nodup.append h3 (List.nodup_range' _ _)
    intro x hx hx'
    have hlt := h4 _ (List.mem_map.mp hx).choose_spec.1
    have hx2 : x = Conn.ch (List.mem_map.mp hx).choose := ((List.mem_map.mp hx).choose_spec.2).symm
    have hge := (List.mem_range'_1.mp hx').1
    omega
  · intro c hc
    rcases List.mem_append.mp hc with hc | hc
    · have := h4 c hc
      simp only [GState.next]
      omega
    · have := (enumConns_ch_lt Signal.enterNotify l st.next c hc).2
      simp only [GState.next]
      omega
  · exact h5
  · show (alKeys (st.hpf ++ (enumConns Signal.enterNotify l st.next).map projConn)).Nodup
    have : alKeys (st.hpf ++ (enumConns Signal.enterNotify l st.next).map projConn) =
        alKeys st.hpf ++ l.map Widget.wid := by
      simp only [alKeys, List.map_append]
      rw [show List.map Prod.fst ((enumConns Signal.enterNotify l st.next).map projConn) =
        alKeys ((enumConns Signal.enterNotify l st.next).map projConn) from rfl, enumConns_keys]
    rw [this]
    apply List.Nodup.append h6 hnodup
    intro x hx hx'
    rcases List.mem_map.mp hx' with ⟨g, hg, hgw⟩
    exact hfresh g hg (hgw ▸ hx)

theorem inv_activate (window : Widget) :
    HelperInv (helperActivate window initGState) := by
  rw [helperActivate]
  have hcn := connectNotebooks_spec (dedupIds (getNotebooks window)) initGState
    (by intro f _ hmem; simp [initGState, alKeys] at hmem) (dedupIds_ids_nodup _)
  rw [hcn]
  apply inv_connectFocusables _ _ _ _ (dedupIds_ids_nodup _)
  · simp only [initGState]
    refine ⟨?_, ?_, ?_, ?_, ?_, ?_⟩
    · dsimp only
      rw [List.nil_append, List.nil_append, enumConns_filter_sig, if_pos rfl]
    · dsimp only
      rw [List.nil_append, enumConns_filter_sig, if_neg (by simp), List.map_nil]
    · dsimp only
      rw [List.nil_append, enumConns_ch]
      exact List.nodup_range' _ _
    · dsimp only
      intro c hc
      rw [List.nil_append] at hc
      exact (enumConns_ch_lt Signal.pageAdded _ 0 c hc).2
    · dsimp only
      rw [List.nil_append, alKeys_projConns, enumConns_cw]
      exact dedupIds_ids_nodup _
    · dsimp only
      simp [alKeys]
  · intro f _ hmem
    simp [initGState, alKeys] at hmem

theorem inv_onPageAdded (st : GState) (child : Widget) (hInv : HelperInv st)
    (hfresh : ∀ f ∈ getFocusables child, f.wid ∉ alKeys st.hpf) :
    HelperInv (onPageAdded st child) := by
  rw [onPageAdded]
  apply inv_connectFocusables st _ hInv _ (dedupIds_ids_nodup _)
  intro f hf
  exact hfresh f (dedupIds_subset _ f hf)

theorem inv_deliverPageAdded (st : GState) (nb : Nat) (child : Widget) (hInv : HelperInv st)
    (hfresh : ∀ f ∈ getFocusables child, f.wid ∉ alKeys st.hpf) :
    HelperInv (deliverPageAdded st nb child) := by
  rw [deliverPageAdded]
  have hle := paCount_le_one st hInv nb
  interval_cases h : paCount st nb
  · exact hInv
  · rw [applyN, applyN]
    exact inv_onPageAdded st child hInv hfresh

theorem pMatch_projConn (c : Conn) : pMatch (projConn c) c = true := by
  simp [pMatch, projConn]

theorem inv_deactivate (st : GState) (hInv : HelperInv st) :
    HelperInv (helperDeactivate st) ∧ (helperDeactivate st).active = [] := by
  obtain ⟨h1, h2, h3, h4, h5, h6⟩ := hInv
  have hinj := List.inj_on_of_nodup_map h3
  have hphase1 : (disconnectNotebooks st).active =
      st.active.filter (fun c => decide (c.csig = Signal.enterNotify)) := by
    rw [disconnectNotebooks]
    have := (disconnectList_spec st.hpn st).1
    rw [show ({ disconnectList st st.hpn with hpn := [] } : GState).active =
        (disconnectList st st.hpn).active from rfl, this]
    apply List.filter_congr
    intro c hc
    cases hsig : c.csig
    · -- page-added connection: its pair is recorded, so the all fails
      have hmem : projConn c ∈ st.hpn := by
        rw [h1]
        exact List.mem_map_of_mem projConn (List.mem_filter.mpr ⟨hc, by simp [hsig]⟩)
      have : st.hpn.all (fun p => ! pMatch p c) = false := by
        apply List.all_eq_false.mpr
        exact ⟨projConn c, hmem, by simp [pMatch_projConn]⟩
      rw [this]
      simp
    · -- enter-notify connection: no notebook pair matches it
      have : st.hpn.all (fun p => ! pMatch p c) = true := by
        apply List.all_eq_true.mpr
        intro p hp
        rw [h1] at hp
        rcases List.mem_map.mp hp with ⟨c', hc', hcp⟩
        have hc'a : c' ∈ st.active := (List.mem_filter.mp hc').1
        have hc'sig : c'.csig = Signal.pageAdded := by
          have := (List.mem_filter.mp hc').2
          simpa using this
        simp only [Bool.not_eq_true']
        rw [pMatch]
        simp only [decide_eq_false_iff_not]
        intro hmatch
        have hch : c.ch = c'.ch := by rw [hmatch.2, ← hcp]; rfl
        have : c = c' := hinj hc hc'a hch
        rw [this, hc'sig] at hsig
        exact absurd hsig (by simp)
      rw [this]
      simp
  have hhpf1 : (disconnectNotebooks st).hpf = st.hpf := by
    rw [disconnectNotebooks]
    exact (disconnectList_spec st.hpn st).2.2.1
  have hphase2 : (helperDeactivate st).active = [] := by
    rw [helperDeactivate, disconnectFocusables]
    have := (disconnectList_spec (disconnectNotebooks st).hpf (disconnectNotebooks st)).1
    rw [show ({ disconnectList (disconnectNotebooks st) (disconnectNotebooks st).hpf with
          hpf := [] } : GState).active =
        (disconnectList (disconnectNotebooks st) (disconnectNotebooks st).hpf).active from rfl,
      this, hphase1, hhpf1]
    apply List.filter_eq_nil_iff.mpr
    intro c hc
    have hcsig : c.csig = Signal.enterNotify := by
      have := (List.mem_filter.mp hc).2
      simpa using this
    have hca : c ∈ st.active := (List.mem_filter.mp hc).1
    have hmem : projConn c ∈ st.hpf := by
      rw [h2]
      exact List.mem_map_of_mem projConn (List.mem_filter.mpr ⟨hca, by simp [hcsig]⟩)
    simp only [Bool.not_eq_true]
    apply List.all_eq_false.mpr
    exact ⟨projConn c, hmem, by simp [pMatch_projConn]⟩
  have hhpn2 : (helperDeactivate st).hpn = [] := by
    rw [helperDeactivate, disconnectFocusables]
    have := (disconnectList_spec (disconnectNotebooks st).hpf (disconnectNotebooks st)).2.1
    rw [show ({ disconnectList (disconnectNotebooks st) (disconnectNotebooks st).hpf with
          hpf := [] } : GState).hpn =
        (disconnectList (disconnectNotebooks st) (disconnectNotebooks st).hpf).hpn from rfl,
      this, disconnectNotebooks]
  have hhpf2 : (helperDeactivate st).hpf = [] := rfl
  refine ⟨⟨?_, ?_, ?_, ?_, ?_, ?_⟩, hphase2⟩
  · rw [hhpn2, hphase2]
    rfl
  · rw [hhpf2, hphase2]
    rfl
  · rw [hphase2]
    simp
  · rw [hphase2]
    simp
  · rw [hhpn2]
    simp [alKeys]
  · rw [hhpf2]
    simp [alKeys]

theorem inv_runEvs (window : Widget) : ∀ (evs : List Ev) (st : GState),
    HelperInv st → freshOk window st evs = true → HelperInv (runEvs window st evs)
  | [], st, hInv, _ => hInv
  | Ev.activate :: r, st, hInv, hok => by
      rw [freshOk, Bool.and_eq_true, Bool.and_eq_true] at hok
      have hst : st = initGState := of_decide_eq_true hok.1.2
      rw [runEvs]
      apply inv_runEvs window r _ _ hok.2
      rw [applyEv, hst]
      exact inv_activate window
  | Ev.pageAdded nb child :: r, st, hInv, hok => by
      rw [freshOk, Bool.and_eq_true, Bool.and_eq_true] at hok
      have hfresh : ∀ f ∈ getFocusables child, f.wid ∉ alKeys st.hpf := by
        intro f hf
        have := List.all_eq_true.mp hok.1.2 f hf
        exact of_decide_eq_true this
      rw [runEvs]
      apply inv_runEvs window r _ _ hok.2
      rw [applyEv]
      exact inv_deliverPageAdded st nb child hInv hfresh
  | Ev.deactivate :: r, st, hInv, hok => by
      rw [freshOk] at hok
      rw [runEvs]
      apply inv_runEvs window r _ _ hok
      rw [applyEv]
      exact (inv_deactivate st hInv).1

/-- C2 (amended): in every state reachable by a well-formed event sequence
(activate only from the pristine state, and each delivered page fresh: no
focusable of the page already tracked), every widget has at most one active
connection per signal created by the helper, and each mapping holds at most
one handle per widget. -/
theorem c2_amended_at_most_one (window : Widget) (evs : List Ev)
    (hok : freshOk window initGState evs = true) (w : Nat) (s : Signal) :
    ((run window evs).active.filter
      (fun c => decide (c.cw = w ∧ c.csig = s))).length ≤ 1 ∧
    (alKeys (run window evs).hpn).Nodup ∧
    (alKeys (run window evs).hpf).Nodup := by
  have hInv := inv_runEvs window evs initGState inv_init hok
  exact ⟨inv_count_le_one _ hInv w s, hInv.2.2.2.2.1, hInv.2.2.2.2.2⟩

/-- Witness for the amended C2 on a concrete well-formed trace. -/
theorem c2_amended_witness :
    freshOk cexWindow initGState [Ev.activate] = true ∧
    (((run cexWindow [Ev.activate]).active.filter
      (fun c => decide (c.cw = 2 ∧ c.csig = Signal.enterNotify))).length ≤ 1 ∧
    (alKeys (run cexWindow [Ev.activate]).hpn).Nodup ∧
    (alKeys (run cexWindow [Ev.activate]).hpf).Nodup) :=
  ⟨by decide, c2_amended_at_most_one cexWindow [Ev.activate] (by decide) 2 Signal.enterNotify⟩

/-- C3 (amended): along well-formed event sequences, every active
connection created by the helper has its (widget, handler) pair recorded in
the corresponding mapping, and after a final deactivate no connection
created by the helper remains active. -/
theorem c3_amended_paired (window : Widget) (evs : List Ev)
    (hok : freshOk window initGState evs = true) :
    (∀ c ∈ (run window evs).active,
      (c.csig = Signal.pageAdded → projConn c ∈ (run window evs).hpn) ∧
      (c.csig = Signal.enterNotify → projConn c ∈ (run window evs).hpf)) ∧
    (run window (evs ++ [Ev.deactivate])).active = [] := by
  have hInv := inv_runEvs window evs initGState inv_init hok
  simp only [run]
  constructor
  · intro c hc
    constructor
    · intro hsig
      rw [hInv.1]
      exact List.mem_map_of_mem projConn (List.mem_filter.mpr ⟨hc, by simp [hsig]⟩)
    · intro hsig
      rw [hInv.2.1]
      exact List.mem_map_of_mem projConn (List.mem_filter.mpr ⟨hc, by simp [hsig]⟩)
  · rw [runEvs_append, runEvs, runEvs, applyEv]
    exact (inv_deactivate _ hInv).2

/-- Witness for the amended C3 on a concrete well-formed trace. -/
theorem c3_amended_witness :
    freshOk cexWindow initGState [Ev.activate] = true ∧
    ((∀ c ∈ (run cexWindow [Ev.activate]).active,
      (c.csig = Signal.pageAdded → projConn c ∈ (run cexWindow [Ev.activate]).hpn) ∧
      (c.csig = Signal.enterNotify → projConn c ∈ (run cexWindow [Ev.activate]).hpf)) ∧
    (run cexWindow ([Ev.activate] ++ [Ev.deactivate])).active = []) :=
  ⟨by decide, c3_amended_paired cexWindow [Ev.activate] (by decide)⟩
